import Mathlib

/-
Verification of the CKAN PM2.5 data-extractor pipeline
(src/CKAN_PM25_DataExtractor.py) against its specification.

The script is a fetch-cache-filter-aggregate pipeline:
  * paginated remote retrieval (while-loop over LIMIT/OFFSET pages,
    lines 88-124),
  * an on-disk JSON cache per date window (lines 73-129),
  * value-range filtering and legacy scale correction of pm2_5
    (lines 134-138),
  * point-in-polygon spatial restriction (line 160),
  * calendar-day aggregation with gap filling and an "Overall" row
    (lines 172-228),
  * an orchestrating nested loop over date windows and areas with
    per-unit try/except error handling (lines 70-267).

The embedding below models each of these pieces directly from the
source.  Numeric sensor values are rationals (the claims under
verification do not depend on IEEE-754 artifacts); timestamps are
modelled at calendar-day resolution as day numbers, which is the
granularity at which the aggregation (resample("D"), pd.date_range)
operates; auxiliary sensor columns (humidity, pressure, ...) that no
claim mentions are omitted from the record structure.
-/

/-- A measurement record, holding the fields of the projected SQL row
that the pipeline actually inspects: the calendar day of
`recording_timestamp`, the coordinates, the pm2_5 value and the
`version_major` string. -/
structure Record where
  recording_timestamp : ℕ
  latitude : ℚ
  longitude : ℚ
  pm2_5 : ℚ
  version_major : String
deriving DecidableEq

/-- Line 136: `df = df[(df["pm2_5"] > 0) & (df["pm2_5"] <= 10000)]`. -/
def rangeFilter (rs : List Record) : List Record :=
  rs.filter (fun r => 0 < r.pm2_5 ∧ r.pm2_5 ≤ 10000)

/-- Line 138: `df.loc[df["version_major"] == "1", "pm2_5"] *= 100`,
acting on one row. -/
def scaleRecord (r : Record) : Record :=
  if r.version_major = "1" then { r with pm2_5 := r.pm2_5 * 100 } else r

/-- Line 138 acting on the whole frame. -/
def scaleCorrect (rs : List Record) : List Record :=
  rs.map scaleRecord

/-- Lines 134-138: the normalization stage, the range filter followed by
the version_major scale correction.  (The `"pm2_5" in df` /
`"version_major" in df` guards are vacuous here because the record type
always carries both fields; on an empty frame both stages are no-ops,
as in the source.) -/
def normalizeRecords (rs : List Record) : List Record :=
  scaleCorrect (rangeFilter rs)

/-- Line 160: `gdf[gdf.within(polygon)]`.  The polygon-interior test is
abstracted as a Boolean predicate on (longitude, latitude), the point
built on lines 144-146. -/
def withinArea (inside : ℚ → ℚ → Bool) (rs : List Record) : List Record :=
  rs.filter (fun r => inside r.longitude r.latitude)

/-- A concrete record used by concrete counterexamples and witnesses. -/
def recV1 : Record :=
  { recording_timestamp := 0, latitude := 0, longitude := 0,
    pm2_5 := 200, version_major := "1" }

/-- Helper: the bounds every normalized record satisfies. -/
def pmBounds (r : Record) : Prop :=
  0 < r.pm2_5 ∧
    (if r.version_major = "1" then r.pm2_5 ≤ 1000000 else r.pm2_5 ≤ 10000)

/-- Arithmetic mean of a pandas Series: sum divided by count. -/
def listMean (l : List ℚ) : ℚ := l.sum / l.length

def insertSorted (x : ℚ) : List ℚ → List ℚ
  | [] => [x]
  | y :: ys => if x ≤ y then x :: y :: ys else y :: insertSorted x ys

def sortAsc : List ℚ → List ℚ
  | [] => []
  | x :: xs => insertSorted x (sortAsc xs)

/-- Median of a pandas Series: sort ascending; an odd count takes the
middle element, an even count averages the two middle elements. -/
def listMedian (l : List ℚ) : ℚ :=
  let s := sortAsc l
  if s.length % 2 = 1 then s.getD (s.length / 2) 0
  else (s.getD (s.length / 2 - 1) 0 + s.getD (s.length / 2) 0) / 2

/-- Round to the nearest integer, ties to even (the rounding rule of
pandas `.round`). -/
def roundHalfEven (q : ℚ) : ℤ :=
  if q - ⌊q⌋ < 1/2 then ⌊q⌋
  else if 1/2 < q - ⌊q⌋ then ⌊q⌋ + 1
  else if ⌊q⌋ % 2 = 0 then ⌊q⌋ else ⌊q⌋ + 1

/-- The `.round(2)` operation: round to 2 decimal places. -/
def round2 (q : ℚ) : ℚ := (roundHalfEven (q * 100) : ℚ) / 100

/-- A statistics cell: either a numeric value or the missing marker (a
pandas NaN, which `fillna("missing")` finally renders as the string
"missing" on line 200). -/
inductive Cell where
  | missing
  | val (q : ℚ)
deriving DecidableEq

/-- Mean of a column slice; empty slices give NaN. -/
def cellMean (l : List ℚ) : Cell :=
  if l.isEmpty then .missing else .val (listMean l)

/-- Median of a column slice; empty slices give NaN. -/
def cellMedian (l : List ℚ) : Cell :=
  if l.isEmpty then .missing else .val (listMedian l)

/-- Lines 194-197 applied to one cell: `/= 100` then `.round(2)`;
NaN (the missing marker) propagates through both. -/
def scaleCell : Cell → Cell
  | .missing => .missing
  | .val q => .val (round2 (q / 100))

/-- Row label of the stats table: a calendar day or "Overall". -/
inductive RowLabel where
  | day (d : ℕ)
  | overall
deriving DecidableEq

/-- One row of the stats table (Date, PM2.5_Average, PM2.5_Median). -/
structure StatsRow where
  date : RowLabel
  avg : Cell
  med : Cell
deriving DecidableEq

/-- The pm2_5 values recorded on calendar day `d`. -/
def pmsOn (rs : List Record) (d : ℕ) : List ℚ :=
  (rs.filter (fun r => r.recording_timestamp = d)).map (fun r => r.pm2_5)

/-- One row of the resampled daily frame. -/
structure DailyEntry where
  day : ℕ
  avg : Cell
  med : Cell
deriving DecidableEq

/-- The day index `resample("D")` produces: every day between the
data's minimum and maximum recording day, inclusive (an empty input
gives an empty frame). -/
def dataDayRange (rs : List Record) : List ℕ :=
  match rs.map (fun r => r.recording_timestamp) with
  | [] => []
  | d :: ds =>
    (List.range (ds.foldl max d + 1 - ds.foldl min d)).map (ds.foldl min d + ·)

/-- Lines 174-180: per-day mean/median of pm2_5 via `resample("D")`;
days inside the data span with no records carry NaN cells. -/
def resampleDaily (rs : List Record) : List DailyEntry :=
  (dataDayRange rs).map
    (fun d => ⟨d, cellMean (pmsOn rs d), cellMedian (pmsOn rs d)⟩)

/-- The index `pd.date_range(start=start_date, end=end_date, freq="D")`
of lines 183-185: the days start..end inclusive. -/
def windowDays (s e : ℕ) : List ℕ :=
  (List.range (e + 1 - s)).map (s + ·)

/-- Index lookup used by `reindex`: the row of the daily frame carrying
day `d`, if any. -/
def findEntry : List DailyEntry → ℕ → Option DailyEntry
  | [], _ => none
  | en :: rest, d => if en.day = d then some en else findEntry rest d

/-- The final stats row `reindex` produces for one window day `d`: the
daily frame's row for `d` scaled (lines 193-200), or an all-NaN row
turned into the missing marker when `d` is absent from the index. -/
def dailyRowOf (tbl : List DailyEntry) (d : ℕ) : StatsRow :=
  match findEntry tbl d with
  | some en => ⟨.day d, scaleCell en.avg, scaleCell en.med⟩
  | none => ⟨.day d, .missing, .missing⟩

/-- Lines 186-200: reindex the resampled frame onto the window's days
(a window day absent from the index gets an all-NaN row), then divide
by 100, round to 2 places, and replace NaN by the missing marker. -/
def dailyTable (rs : List Record) (s e : ℕ) : List StatsRow :=
  (windowDays s e).map (dailyRowOf (resampleDaily rs))

/-- Lines 205-218: the synthetic "Overall" row, mean/median over the
entire in-area record set, divided by 100 and rounded. -/
def overallRow (rs : List Record) : StatsRow :=
  ⟨.overall, scaleCell (cellMean (rs.map (fun r => r.pm2_5))),
   scaleCell (cellMedian (rs.map (fun r => r.pm2_5)))⟩

/-- Lines 226-228: `stats_df = pd.concat([daily_stats, overall_stats])`. -/
def statsTable (rs : List Record) (s e : ℕ) : List StatsRow :=
  dailyTable rs s e ++ [overallRow rs]

/-- The outcome of one paginated GET (lines 101-113): a parsed page of
records, or one of the two caught error classes (an HTTP error status,
or any other exception during the request), both of which `break` the
loop. -/
inductive PageResult where
  | ok (records : List Record)
  | httpError
  | otherError
deriving DecidableEq

/-- Line 83: `limit = 10000`. -/
def pageLimit : ℕ := 10000

/-- Whether the loop body stops at this page: either except arm breaks
(lines 106-113), and an empty `records` list breaks (lines 121-122). -/
def stopsAt : PageResult → Bool
  | .ok recs => recs.isEmpty
  | .httpError => true
  | .otherError => true

/-- Lines 88-124, the `while True` pagination loop.  `resp` maps an
offset to the server response for the page at that offset; `acc` is
`all_records`; the returned trace lists the offsets actually queried,
in order (the loop issues exactly one GET per iteration).  `fuel`
bounds the number of iterations and is a modelling artifact for the
unbounded while-loop: every theorem below supplies enough fuel for the
loop to reach its `break`. -/
def fetchLoopAux (resp : ℕ → PageResult) :
    ℕ → ℕ → List Record → List ℕ → List Record × List ℕ
  | 0, _, acc, trace => (acc, trace)
  | fuel + 1, off, acc, trace =>
    match resp off with
    | .httpError => (acc, trace ++ [off])
    | .otherError => (acc, trace ++ [off])
    | .ok recs =>
      if recs.isEmpty then (acc, trace ++ [off])
      else fetchLoopAux resp fuel (off + pageLimit) (acc ++ recs) (trace ++ [off])

/-- Lines 82-124: pagination for one window, starting from offset 0
with an empty `all_records`. -/
def fetchWindow (resp : ℕ → PageResult) (fuel : ℕ) : List Record × List ℕ :=
  fetchLoopAux resp fuel 0 [] []

/-- Cache key: the literal (start_date, end_date) strings that make up
the cache file name (line 73). -/
abbrev CacheKey := String × String

/-- The cache directory contents: one entry per cache file. -/
abbrev CacheStore := List (CacheKey × List Record)

/-- The `os.path.isfile` check plus `json.load` (lines 77-80). -/
def lookupCache : CacheStore → CacheKey → Option (List Record)
  | [], _ => none
  | (k, v) :: rest, key => if k = key then some v else lookupCache rest key

/-- The `json.dump` of the fetched records to the window's cache file
(lines 127-128). -/
def insertCache (c : CacheStore) (key : CacheKey) (v : List Record) :
    CacheStore :=
  c ++ [(key, v)]

/-- Lines 77-129: cache-or-fetch for one window.  `fetched` is the
(records, queried-offsets) pair the pagination loop would produce on a
miss; the third component of the result counts the remote calls
actually issued for this window. -/
def getOrFetch (c : CacheStore) (key : CacheKey)
    (fetched : List Record × List ℕ) : List Record × CacheStore × ℕ :=
  match lookupCache c key with
  | some v => (v, c, 0)
  | none => (fetched.1, insertCache c key fetched.1, fetched.2.length)

/-- The full fetch phase of one window: cache check, pagination on a
miss, and the unconditional `json.dump` of whatever the loop collected
(also when an error truncated it, and also when it is empty). -/
def fetchPhase (c : CacheStore) (key : CacheKey) (resp : ℕ → PageResult)
    (fuel : ℕ) : List Record × CacheStore × ℕ :=
  getOrFetch c key (fetchWindow resp fuel)

/-- An execution environment for one run of the orchestrating nested
loop (lines 70-267): the per-area polygon membership tests, the raw
record list each window's fetch phase produces, and oracles saying
which guarded blocks raise.  `windowFail` models an exception in the
window body outside the area loop (e.g. a corrupt cache file at
line 80); `geoFail` a `gpd.read_file` failure (lines 151-156);
`dailyFail` an exception in the daily-stats try block (lines 172-203),
modelled as raised by its first statement; `overallFail` likewise for
the overall-stats try block (lines 205-223). -/
structure Scenario where
  inside : String → ℚ → ℚ → Bool
  windowFail : ℕ × ℕ → Bool
  geoFail : ℕ × ℕ → String → Bool
  dailyFail : ℕ × ℕ → String → Bool
  overallFail : ℕ × ℕ → String → Bool
  recordsFor : ℕ × ℕ → List Record

/-- The Python variable bindings that survive across loop iterations
(the `daily_stats` and `overall_stats` variables, `none` while not yet
bound) plus the accumulated `all_stats_sections` list.  A summary
label is modelled as the (area, window) pair that the formatted label
string of line 232 encodes. -/
structure OrchState where
  daily_stats : Option (List StatsRow)
  overall_stats : Option StatsRow
  summary : List ((String × (ℕ × ℕ)) × List StatsRow)
deriving DecidableEq

/-- The state at interpreter start: nothing bound, no sections. -/
def initState : OrchState := ⟨none, none, []⟩

/-- Result of the per-area loop body: normal continuation, or an
uncaught exception propagating to the per-window handler (line 263). -/
inductive AreaStep where
  | ok (s : OrchState)
  | raised (s : OrchState)
deriving DecidableEq

/-- Lines 150-233, the body of the per-area loop for area `a` in window
`w`, where `gdf` is the window's normalized record list.  A failing
`gpd.read_file` skips the area (`continue`); an empty in-area frame
skips the area; a failure of the daily-stats or overall-stats try
block is caught and logged, leaving the corresponding variable binding
unchanged; `pd.concat` on line 226 then raises a NameError exactly
when one of the two variables was never bound, and otherwise the
(label, stats_df) pair — built from the current, possibly stale,
bindings — is appended to `all_stats_sections`.  The CSV/Excel save
block (lines 236-261) catches its own errors and does not touch the
summary, so it is omitted. -/
def processArea (sc : Scenario) (w : ℕ × ℕ) (gdf : List Record)
    (st : OrchState) (a : String) : AreaStep :=
  if sc.geoFail w a then .ok st
  else
    let inArea := withinArea (sc.inside a) gdf
    if inArea.isEmpty then .ok st
    else
      let d := if sc.dailyFail w a then st.daily_stats
               else some (dailyTable inArea w.1 w.2)
      let o := if sc.overallFail w a then st.overall_stats
               else some (overallRow inArea)
      match d, o with
      | some dt, some ov =>
        .ok ⟨some dt, some ov, st.summary ++ [((a, w), dt ++ [ov])]⟩
      | _, _ => .raised ⟨d, o, st.summary⟩

/-- Lines 150-261: iterate over the configured areas; a raised
exception escapes the area loop to the per-window except handler
(lines 263-267), skipping the remaining areas of this window. -/
def processAreas (sc : Scenario) (w : ℕ × ℕ) (gdf : List Record) :
    OrchState → List String → OrchState
  | st, [] => st
  | st, a :: rest =>
    match processArea sc w gdf st a with
    | .ok st' => processAreas sc w gdf st' rest
    | .raised st' => st'

/-- Lines 70-267, the body of the per-window loop: the fetch phase and
DataFrame construction (an exception there is caught by the per-window
handler and skips the window, modelled by `windowFail`), then
normalization, the empty-frame `continue` of lines 140-142, then the
area loop. -/
def processWindow (sc : Scenario) (areas : List String)
    (st : OrchState) (w : ℕ × ℕ) : OrchState :=
  if sc.windowFail w then st
  else
    let gdf := normalizeRecords (sc.recordsFor w)
    if gdf.isEmpty then st
    else processAreas sc w gdf st areas

/-- The orchestrator loop over all date windows (line 70). -/
def runPipeline (sc : Scenario) (areas : List String)
    (st : OrchState) (ws : List (ℕ × ℕ)) : OrchState :=
  ws.foldl (processWindow sc areas) st

/-- A record on day `d` with pm2_5 = 100, version_major "0", located at
the origin (inside every area of the concrete scenarios below). -/
def recOn (d : ℕ) : Record :=
  { recording_timestamp := d, latitude := 0, longitude := 0,
    pm2_5 := 100, version_major := "0" }

/-- A full page of 10000 records, as in the specification's pagination
scenario. -/
def page10000 : List Record := List.replicate 10000 recV1

/-- A server that returns one full page and then fails with an HTTP
error on the second page. -/
def resp2 : ℕ → PageResult :=
  fun off => if off = 0 then .ok page10000 else .httpError

/-- The page contents of the specification's pagination scenario: two
full pages of 10000 records, one page of 3000 records, then empty. -/
def pages23 : ℕ → List Record
  | 0 => List.replicate 10000 recV1
  | 1 => List.replicate 10000 recV1
  | 2 => List.replicate 3000 recV1
  | _ => []

/-- A server serving `pages23` at the offsets the loop uses. -/
def resp23 : ℕ → PageResult := fun off => .ok (pages23 (off / pageLimit))

/-- A concrete cache key used by witnesses. -/
def cacheKeyW : CacheKey := ("2022-04-01", "2022-05-31")

/-- Scenario for the C8 counterexample, part 1: one area "A" covering
everything, one in-area record per window; the daily-stats block fails
for window (1,1) only. -/
def sc8a : Scenario :=
  { inside := fun _ _ _ => true
    windowFail := fun _ => false
    geoFail := fun _ _ => false
    dailyFail := fun w _ => decide (w = (1, 1))
    overallFail := fun _ _ => false
    recordsFor := fun w => [recOn w.1] }

/-- Scenario for the C8 counterexample, part 2: two areas "A" and "B";
the daily-stats block fails for area "A" in every window, area "B" is
healthy. -/
def sc8b : Scenario :=
  { inside := fun _ _ _ => true
    windowFail := fun _ => false
    geoFail := fun _ _ => false
    dailyFail := fun _ a => decide (a = "A")
    overallFail := fun _ _ => false
    recordsFor := fun w => [recOn w.1] }

/-- The daily table of window (0,0) in scenario `sc8a`, the value the
`daily_stats` variable still holds when window (1,1) is processed. -/
def dtW : List StatsRow := dailyTable [recOn 0] 0 0

/-- The orchestrator state after window (0,0) of scenario `sc8a`,
restricted to its variable bindings (summary cleared), used by the C8
amended witness. -/
def stW : OrchState := ⟨some dtW, some (overallRow [recOn 0]), []⟩

/-- Claim C1 counterexample: the raw record `recV1` (pm2_5 = 200,
version_major = "1") survives the range filter, and the scale
correction then yields pm2_5 = 20000, so the normalized record violates
0 < pm2_5 ≤ 10000. -/
theorem c1_counterexample :
    ¬ (∀ r ∈ normalizeRecords [recV1], 0 < r.pm2_5 ∧ r.pm2_5 ≤ 10000) := by
  intro h
  have hmem : scaleRecord recV1 ∈ normalizeRecords [recV1] :=
    List.mem_map_of_mem scaleRecord (by decide)
  have hv : (scaleRecord recV1).pm2_5 = 20000 := by
    norm_num [scaleRecord, recV1]
  have hle := (h _ hmem).2
  rw [hv] at hle
  norm_num at hle

lemma scaleRecord_version_major (r : Record) :
    (scaleRecord r).version_major = r.version_major := by
  unfold scaleRecord; split <;> rfl

lemma scaleRecord_pm2_5 (r : Record) :
    (scaleRecord r).pm2_5 =
      (if r.version_major = "1" then r.pm2_5 * 100 else r.pm2_5) := by
  unfold scaleRecord
  by_cases hv : r.version_major = "1" <;> simp [hv]

lemma normalize_pmBounds (rs : List Record) :
    ∀ r ∈ normalizeRecords rs, pmBounds r := by
  intro r hr
  unfold normalizeRecords scaleCorrect at hr
  rcases List.mem_map.mp hr with ⟨r₀, hr₀, rfl⟩
  unfold rangeFilter at hr₀
  have hb := List.of_mem_filter hr₀
  simp only [decide_eq_true_eq] at hb
  unfold pmBounds
  rw [scaleRecord_pm2_5, scaleRecord_version_major]
  by_cases hv : r₀.version_major = "1"
  · rw [if_pos hv, if_pos hv]
    exact ⟨by nlinarith [hb.1], by nlinarith [hb.2]⟩
  · rw [if_neg hv, if_neg hv]
    exact hb

/-- Claim C1 (amended): every record surviving normalization has
pm2_5 > 0; its pm2_5 is at most 10000 when version_major ≠ "1" and at
most 1000000 when version_major = "1" (the (0, 10000] range filter is
applied to the pre-scaling value, before the ×100 scale correction),
and the downstream spatial-filter stage receives only records
satisfying these same bounds. -/
theorem c1_amended (rs : List Record) (inside : ℚ → ℚ → Bool) :
    (∀ r ∈ normalizeRecords rs, 0 < r.pm2_5 ∧
      (if r.version_major = "1" then r.pm2_5 ≤ 1000000 else r.pm2_5 ≤ 10000)) ∧
    (∀ r ∈ withinArea inside (normalizeRecords rs), 0 < r.pm2_5 ∧
      (if r.version_major = "1" then r.pm2_5 ≤ 1000000 else r.pm2_5 ≤ 10000)) :=
  ⟨fun r hr => normalize_pmBounds rs r hr,
   fun r hr => normalize_pmBounds rs r (List.mem_of_mem_filter hr)⟩

/-- Claim C6: for a record at the scale-correction step (i.e. one that
survived the range filter), normalization multiplies its pm2_5 by 100
exactly when version_major = "1" and leaves it unchanged otherwise;
the normalized list is exactly the elementwise scale correction of the
filtered list. -/
theorem c6_scale_correction (rs : List Record) (r : Record)
    (h : r ∈ rangeFilter rs) :
    scaleRecord r ∈ normalizeRecords rs ∧
    (scaleRecord r).pm2_5 =
      (if r.version_major = "1" then r.pm2_5 * 100 else r.pm2_5) ∧
    (scaleRecord r).version_major = r.version_major :=
  ⟨List.mem_map_of_mem scaleRecord h, scaleRecord_pm2_5 r,
   scaleRecord_version_major r⟩

/-- Witness for C6 at a concrete input: `recV1` survives the filter and
its value 200 is mapped to 20000. -/
theorem c6_scale_correction_witness :
    scaleRecord recV1 ∈ normalizeRecords [recV1] ∧
    (scaleRecord recV1).pm2_5 =
      (if recV1.version_major = "1" then recV1.pm2_5 * 100 else recV1.pm2_5) ∧
    (scaleRecord recV1).version_major = recV1.version_major :=
  c6_scale_correction [recV1] recV1 (by decide)

lemma fetchLoopAux_run (resp : ℕ → PageResult) :
    ∀ (n : ℕ) (pages : ℕ → List Record) (fuel off : ℕ)
      (acc : List Record) (trace : List ℕ),
      (∀ i, i < n → resp (off + i * pageLimit) = .ok (pages i) ∧
        (pages i).isEmpty = false) →
      stopsAt (resp (off + n * pageLimit)) = true →
      n < fuel →
      fetchLoopAux resp fuel off acc trace =
        (acc ++ ((List.range n).map pages).flatten,
         trace ++ (List.range (n + 1)).map (fun i => off + i * pageLimit)) := by
  intro n
  induction n with
  | zero =>
    intro pages fuel off acc trace _ hstop hfuel
    obtain ⟨fuel', rfl⟩ : ∃ f, fuel = f + 1 := ⟨fuel - 1, by omega⟩
    simp only [Nat.zero_mul, Nat.add_zero] at hstop
    unfold fetchLoopAux
    cases h : resp off with
    | ok recs =>
      rw [h] at hstop
      simp only [stopsAt] at hstop
      simp [hstop, List.range_succ]
    | httpError => simp [List.range_succ]
    | otherError => simp [List.range_succ]
  | succ n ih =>
    intro pages fuel off acc trace hok hstop hfuel
    obtain ⟨fuel', rfl⟩ : ∃ f, fuel = f + 1 := ⟨fuel - 1, by omega⟩
    have h0 := hok 0 (by omega)
    simp only [Nat.zero_mul, Nat.add_zero] at h0
    unfold fetchLoopAux
    rw [h0.1]
    simp only [h0.2, Bool.false_eq_true, if_false]
    rw [ih (fun i => pages (i + 1)) fuel' (off + pageLimit) (acc ++ pages 0)
        (trace ++ [off])
        (by
          intro i hi
          have h := hok (i + 1) (by omega)
          have harith : off + pageLimit + i * pageLimit
              = off + (i + 1) * pageLimit := by ring
          rw [harith]
          exact h)
        (by
          have harith : off + pageLimit + n * pageLimit
              = off + (n + 1) * pageLimit := by ring
          rw [harith]
          exact hstop)
        (by omega)]
    simp only [Prod.mk.injEq]
    constructor
    · rw [List.range_succ_eq_map, List.map_cons, List.map_map,
        List.flatten_cons, List.append_assoc]
      rfl
    · have hfun : (fun i => off + pageLimit + i * pageLimit)
          = ((fun i => off + i * pageLimit) ∘ Nat.succ) := by
        funext i
        simp only [Function.comp_apply, Nat.succ_eq_add_one]
        ring
      rw [List.range_succ_eq_map (n + 1), List.map_cons, List.map_map,
        List.append_assoc, List.singleton_append, hfun]
      simp

/-- Claim C2: if a transport or HTTP error occurs at page n (offset
n·limit) of a window's paginated query after n full pages, the loop
stops there: the result is exactly the concatenation of pages 0..n-1
(the partial set is retained, not discarded), the queried offsets are
exactly 0, limit, ..., n·limit, each queried once (no retry), and on a
cache miss the control flow continues normally into the cache dump for
the window (the error is caught inside the loop, so the per-window
body proceeds and the orchestrator moves on to the next window). -/
theorem c2_error_truncates (resp : ℕ → PageResult) (pages : ℕ → List Record)
    (n fuel : ℕ) (c : CacheStore) (key : CacheKey)
    (hok : ∀ i, i < n → resp (i * pageLimit) = .ok (pages i) ∧
      (pages i).isEmpty = false)
    (herr : resp (n * pageLimit) = .httpError ∨
      resp (n * pageLimit) = .otherError)
    (hfuel : n < fuel)
    (hmiss : lookupCache c key = none) :
    fetchWindow resp fuel =
      (((List.range n).map pages).flatten,
       (List.range (n + 1)).map (fun i => i * pageLimit)) ∧
    ((List.range (n + 1)).map (fun i => i * pageLimit)).Nodup ∧
    fetchPhase c key resp fuel =
      (((List.range n).map pages).flatten,
       insertCache c key ((List.range n).map pages).flatten, n + 1) := by
  have hrun := fetchLoopAux_run resp n pages fuel 0 [] []
    (by intro i hi; simpa using hok i hi)
    (by rcases herr with h | h <;> simp [stopsAt, h])
    hfuel
  have hfw : fetchWindow resp fuel =
      (((List.range n).map pages).flatten,
       (List.range (n + 1)).map (fun i => i * pageLimit)) := by
    rw [fetchWindow, hrun]
    simp
  refine ⟨hfw, ?_, ?_⟩
  · apply List.Nodup.map _ (List.nodup_range (n + 1))
    intro a b hab
    simp only [pageLimit] at hab
    omega
  · rw [fetchPhase, hfw, getOrFetch, hmiss]
    simp

/-- Witness for C2 at a concrete input: one full page of 10000 records,
then an HTTP error on the second page.  The fetch yields exactly those
10000 records, the offsets queried are 0 and 10000 (each once), and
the partial page set is cached for the window. -/
theorem c2_error_truncates_witness :
    fetchWindow resp2 2 = (page10000, [0, pageLimit]) ∧
    (fetchWindow resp2 2).1.length = 10000 ∧
    fetchPhase [] cacheKeyW resp2 2 =
      (page10000, [(cacheKeyW, page10000)], 2) := by
  have h := c2_error_truncates resp2 (fun _ => page10000) 1 2 [] cacheKeyW
    (by
      intro i hi
      have hi0 : i = 0 := by omega
      subst hi0
      exact ⟨rfl, rfl⟩)
    (Or.inl rfl)
    (by omega)
    rfl
  have hflat : ((List.range 1).map (fun _ => page10000)).flatten = page10000 := by
    simp
  have htr : (List.range 2).map (fun i => i * pageLimit) = [0, pageLimit] := by
    simp [List.range_succ]
  refine ⟨?_, ?_, ?_⟩
  · rw [h.1, hflat, htr]
  · rw [h.1]
    show (((List.range 1).map (fun _ => page10000)).flatten).length = 10000
    rw [hflat]
    show (List.replicate 10000 recV1).length = 10000
    rw [List.length_replicate]
  · have h3 := h.2.2
    rw [hflat] at h3
    simpa [insertCache] using h3

/-- Claim C7 counterexample: against a source returning two full pages
of 10000 records, then a page of 3000 records, then an empty page, the
pagination loop returns 23000 raw records, not the 20003 the claim
states. -/
theorem c7_counterexample :
    (fetchWindow resp23 10).1.length = 23000 ∧ (23000 : ℕ) ≠ 20003 := by
  have h := fetchLoopAux_run resp23 3 pages23 10 0 [] []
    (by
      intro i hi
      have h3 : i = 0 ∨ i = 1 ∨ i = 2 := by omega
      rcases h3 with rfl | rfl | rfl <;> exact ⟨rfl, rfl⟩)
    rfl
    (by omega)
  refine ⟨?_, by omega⟩
  rw [fetchWindow, h]
  simp only [List.nil_append]
  rw [show List.range 3 = [0, 1, 2] from rfl]
  simp only [List.map_cons, List.map_nil]
  show ((List.replicate 10000 recV1 :: List.replicate 10000 recV1 ::
    List.replicate 3000 recV1 :: []).flatten).length = 23000
  simp only [List.flatten_cons, List.flatten_nil, List.length_append,
    List.length_replicate, List.length_nil]

/-- Claim C7 (amended): the pagination loop terminates when a page
returns zero records and returns the concatenation of all previously
fetched pages in order; a short but non-empty page does not terminate
the loop (the offset following the short page is still queried, as the
returned trace shows); for a source returning two full pages of 10000
records, then a page of 3000 records, then an empty page, the result
is exactly 23000 raw records. -/
theorem c7_empty_terminates (resp : ℕ → PageResult)
    (pages : ℕ → List Record) (n fuel : ℕ)
    (hok : ∀ i, i < n → resp (i * pageLimit) = .ok (pages i) ∧
      (pages i).isEmpty = false)
    (hstop : resp (n * pageLimit) = .ok [])
    (hfuel : n < fuel) :
    fetchWindow resp fuel =
      (((List.range n).map pages).flatten,
       (List.range (n + 1)).map (fun i => i * pageLimit)) := by
  have h := fetchLoopAux_run resp n pages fuel 0 [] []
    (by intro i hi; simpa using hok i hi)
    (by simp [stopsAt, hstop])
    hfuel
  rw [fetchWindow, h]
  simp only [List.nil_append, Nat.zero_add]

/-- Witness for C7 at the specification's concrete scenario: pages of
10000, 10000, 3000 records and then an empty page give exactly 23000
records; the trace [0, 10000, 20000, 30000] shows the loop queried the
offset after the short 3000-record page rather than stopping at it. -/
theorem c7_empty_terminates_witness :
    fetchWindow resp23 10 =
      (((List.range 3).map pages23).flatten,
       [0, pageLimit, 2 * pageLimit, 3 * pageLimit]) ∧
    (fetchWindow resp23 10).1.length = 23000 := by
  have h := c7_empty_terminates resp23 pages23 3 10
    (by
      intro i hi
      have h3 : i = 0 ∨ i = 1 ∨ i = 2 := by omega
      rcases h3 with rfl | rfl | rfl <;> exact ⟨rfl, rfl⟩)
    rfl
    (by omega)
  refine ⟨?_, ?_⟩
  · rw [h]
    simp only [Prod.mk.injEq, true_and]
    rw [show List.range 4 = [0, 1, 2, 3] from rfl]
    simp only [List.map_cons, List.map_nil]
    norm_num
  · rw [h]
    simp only []
    rw [show List.range 3 = [0, 1, 2] from rfl]
    simp only [List.map_cons, List.map_nil]
    show ((List.replicate 10000 recV1 :: List.replicate 10000 recV1 ::
      List.replicate 3000 recV1 :: []).flatten).length = 23000
    simp only [List.flatten_cons, List.flatten_nil, List.length_append,
      List.length_replicate, List.length_nil]

lemma lookupCache_insert (c : CacheStore) (key : CacheKey) (v : List Record)
    (h : lookupCache c key = none) :
    lookupCache (insertCache c key v) key = some v := by
  induction c with
  | nil => simp [insertCache, lookupCache]
  | cons kv rest ih =>
    obtain ⟨k, w⟩ := kv
    simp only [lookupCache] at h
    simp only [insertCache, List.cons_append, lookupCache]
    by_cases hk : k = key
    · rw [if_pos hk] at h
      cases h
    · rw [if_neg hk] at h ⊢
      exact ih h

/-- Claim C3: for a window whose literal (start_date, end_date) cache
key has a persisted entry, that entry is returned as-is and zero
remote calls are issued; otherwise the remote fetch result is
persisted verbatim — including when it is the empty list — and
returned, and a later lookup of the key finds exactly it. -/
theorem c3_cache_or_fetch (c : CacheStore) (key : CacheKey) (v : List Record)
    (fetched : List Record × List ℕ) :
    (lookupCache c key = some v → getOrFetch c key fetched = (v, c, 0)) ∧
    (lookupCache c key = none →
      getOrFetch c key fetched =
        (fetched.1, insertCache c key fetched.1, fetched.2.length) ∧
      lookupCache (insertCache c key fetched.1) key = some fetched.1) := by
  constructor
  · intro h
    rw [getOrFetch, h]
  · intro h
    rw [getOrFetch, h]
    exact ⟨rfl, lookupCache_insert c key fetched.1 h⟩

/-- Witness for C3: a cache hit returns the stored records with zero
remote calls; a miss on an empty store persists the fetched result
verbatim — here the empty list — and a later lookup finds it. -/
theorem c3_cache_or_fetch_witness :
    getOrFetch [(cacheKeyW, [recV1])] cacheKeyW ([], [0]) =
      ([recV1], [(cacheKeyW, [recV1])], 0) ∧
    (getOrFetch [] cacheKeyW ([], [0]) =
      ([], insertCache [] cacheKeyW [], 1) ∧
     lookupCache (insertCache [] cacheKeyW []) cacheKeyW = some []) :=
  ⟨(c3_cache_or_fetch [(cacheKeyW, [recV1])] cacheKeyW [recV1] ([], [0])).1 rfl,
   (c3_cache_or_fetch [] cacheKeyW [] ([], [0])).2 rfl⟩

/-- Claim C9: when a transport or HTTP error truncates a window's
pagination (an error at page n after n full ok pages), the partial
record set collected before the error is still written to the window's
cache entry, and every subsequent run over the same key takes the
cache-hit path: it returns the truncated set with zero remote calls,
whatever the remote source would answer by then. -/
theorem c9_truncated_set_cached (c : CacheStore) (key : CacheKey)
    (resp : ℕ → PageResult) (pages : ℕ → List Record) (n fuel : ℕ)
    (hmiss : lookupCache c key = none)
    (hok : ∀ i, i < n → resp (i * pageLimit) = .ok (pages i) ∧
      (pages i).isEmpty = false)
    (herr : resp (n * pageLimit) = .httpError ∨
      resp (n * pageLimit) = .otherError)
    (hfuel : n < fuel) :
    fetchPhase c key resp fuel =
      (((List.range n).map pages).flatten,
       insertCache c key ((List.range n).map pages).flatten, n + 1) ∧
    ∀ (resp' : ℕ → PageResult) (fuel' : ℕ),
      fetchPhase (insertCache c key ((List.range n).map pages).flatten)
          key resp' fuel' =
        (((List.range n).map pages).flatten,
         insertCache c key ((List.range n).map pages).flatten, 0) := by
  have hrun := fetchLoopAux_run resp n pages fuel 0 [] []
    (by intro i hi; simpa using hok i hi)
    (by rcases herr with h | h <;> simp [stopsAt, h])
    hfuel
  have hfw : fetchWindow resp fuel =
      (((List.range n).map pages).flatten,
       (List.range (n + 1)).map (fun i => i * pageLimit)) := by
    rw [fetchWindow, hrun]
    simp only [List.nil_append, Nat.zero_add]
  constructor
  · rw [fetchPhase, hfw, getOrFetch, hmiss]
    simp
  · intro resp' fuel'
    have hhit := lookupCache_insert c key
      (((List.range n).map pages).flatten) hmiss
    rw [fetchPhase, getOrFetch, hhit]

/-- Witness for C9: an HTTP error on page 2 caches the 10000-record
partial page under the window's key; a second run over the same key
hits the cache, returns the truncated set and issues zero remote
calls. -/
theorem c9_truncated_set_cached_witness :
    fetchPhase [] cacheKeyW resp2 2 =
      (page10000, [(cacheKeyW, page10000)], 2) ∧
    fetchPhase [(cacheKeyW, page10000)] cacheKeyW resp2 2 =
      (page10000, [(cacheKeyW, page10000)], 0) := by
  have h := c9_truncated_set_cached [] cacheKeyW resp2 (fun _ => page10000) 1 2
    rfl
    (by
      intro i hi
      have hi0 : i = 0 := by omega
      subst hi0
      exact ⟨rfl, rfl⟩)
    (Or.inl rfl)
    (by omega)
  have hflat : ((List.range 1).map (fun _ => page10000)).flatten = page10000 := by
    simp
  constructor
  · have h1 := h.1
    rw [hflat] at h1
    simpa [insertCache] using h1
  · have h2 := h.2 resp2 2
    rw [hflat] at h2
    simpa [insertCache] using h2

lemma dailyRowOf_date (tbl : List DailyEntry) (d : ℕ) :
    (dailyRowOf tbl d).date = .day d := by
  unfold dailyRowOf
  cases findEntry tbl d <;> rfl

lemma findEntry_some (tbl : List DailyEntry) (d : ℕ) (en : DailyEntry)
    (h : findEntry tbl d = some en) : en ∈ tbl ∧ en.day = d := by
  induction tbl with
  | nil => cases h
  | cons x rest ih =>
    simp only [findEntry] at h
    by_cases hx : x.day = d
    · rw [if_pos hx] at h
      injection h with hxe
      subst hxe
      exact ⟨List.mem_cons_self x rest, hx⟩
    · rw [if_neg hx] at h
      obtain ⟨h1, h2⟩ := ih h
      exact ⟨List.mem_cons_of_mem _ h1, h2⟩

lemma resampleDaily_entry (rs : List Record) (en : DailyEntry)
    (h : en ∈ resampleDaily rs) :
    en = ⟨en.day, cellMean (pmsOn rs en.day), cellMedian (pmsOn rs en.day)⟩ := by
  unfold resampleDaily at h
  rcases List.mem_map.mp h with ⟨d, _, rfl⟩
  rfl

lemma pmsOn_eq_nil (rs : List Record) (d : ℕ)
    (h : ∀ r ∈ rs, r.recording_timestamp ≠ d) : pmsOn rs d = [] := by
  induction rs with
  | nil => rfl
  | cons x xs ih =>
    have hx : x.recording_timestamp ≠ d := h x (List.mem_cons_self x xs)
    have ihh : pmsOn xs d = [] :=
      ih (fun r hr => h r (List.mem_cons_of_mem _ hr))
    unfold pmsOn at ihh ⊢
    rw [List.filter_cons, if_neg (by simp [hx])]
    exact ihh

lemma dailyRowOf_missing (rs : List Record) (d : ℕ)
    (hnone : pmsOn rs d = []) :
    dailyRowOf (resampleDaily rs) d = ⟨.day d, .missing, .missing⟩ := by
  unfold dailyRowOf
  cases h : findEntry (resampleDaily rs) d with
  | none => rfl
  | some en =>
    obtain ⟨hmem, hday⟩ := findEntry_some _ _ _ h
    obtain ⟨ed, ea, em⟩ := en
    injection resampleDaily_entry rs ⟨ed, ea, em⟩ hmem with h1 h2 h3
    dsimp at hday
    subst hday
    rw [h2, h3, hnone]
    rfl

lemma dailyTable_map_date (rs : List Record) (s e : ℕ) :
    (dailyTable rs s e).map StatsRow.date
      = (windowDays s e).map RowLabel.day := by
  unfold dailyTable
  rw [List.map_map]
  have hfun : StatsRow.date ∘ dailyRowOf (resampleDaily rs)
      = RowLabel.day := by
    funext d
    exact dailyRowOf_date (resampleDaily rs) d
  rw [hfun]

lemma statsTable_getLast (rs : List Record) (s e : ℕ) :
    (statsTable rs s e).getLast? = some (overallRow rs) := by
  unfold statsTable
  simp

/-- Claim C4: for a window [s, e] (and a nonempty in-area record set,
without which the source skips the table), the stats table consists of
exactly one row per calendar day from s to e inclusive — e − s + 1 day
rows — followed by exactly one synthetic "Overall" row, regardless of
data sparsity. -/
theorem c4_completeness (rs : List Record) (s e : ℕ)
    (hse : s ≤ e) (hne : rs ≠ []) :
    (statsTable rs s e).map StatsRow.date
      = (windowDays s e).map RowLabel.day ++ [RowLabel.overall] ∧
    (windowDays s e).length = e - s + 1 ∧
    (statsTable rs s e).length = (e - s + 1) + 1 := by
  have hlen : (windowDays s e).length = e - s + 1 := by
    unfold windowDays
    rw [List.length_map, List.length_range]
    omega
  refine ⟨?_, hlen, ?_⟩
  · unfold statsTable
    rw [List.map_append, dailyTable_map_date]
    rfl
  · unfold statsTable
    rw [List.length_append]
    have hdt : (dailyTable rs s e).length = e - s + 1 := by
      unfold dailyTable
      rw [List.length_map]
      exact hlen
    rw [hdt]
    rfl

/-- Witness for C4: window [0, 2] with a single record on day 0 yields
three day rows (days 0, 1, 2) plus one Overall row. -/
theorem c4_completeness_witness :
    (statsTable [recOn 0] 0 2).map StatsRow.date
      = (windowDays 0 2).map RowLabel.day ++ [RowLabel.overall] ∧
    (windowDays 0 2).length = 2 - 0 + 1 ∧
    (statsTable [recOn 0] 0 2).length = (2 - 0 + 1) + 1 :=
  c4_completeness [recOn 0] 0 2 (by omega) (by simp)

/-- Claim C5: a calendar day inside the window with zero in-area
records appears in the stats table as a row carrying the missing
marker in both the average and the median column (and that is the only
row for that day); the Overall row is unchanged when the (nonexistent)
records of that day are removed — missing days contribute nothing to
it and their rows enter no arithmetic; the Overall row itself is the
last row, computed only from the record set. -/
theorem c5_missing_day (rs : List Record) (s e d : ℕ)
    (hd : d ∈ windowDays s e)
    (hnone : ∀ r ∈ rs, r.recording_timestamp ≠ d) :
    (⟨.day d, .missing, .missing⟩ : StatsRow) ∈ statsTable rs s e ∧
    (∀ row ∈ statsTable rs s e, row.date = .day d →
      row = ⟨.day d, .missing, .missing⟩) ∧
    overallRow rs
      = overallRow (rs.filter (fun r => r.recording_timestamp ≠ d)) ∧
    (statsTable rs s e).getLast? = some (overallRow rs) := by
  have hpms : pmsOn rs d = [] := pmsOn_eq_nil rs d hnone
  refine ⟨?_, ?_, ?_, statsTable_getLast rs s e⟩
  · unfold statsTable
    apply List.mem_append_left
    unfold dailyTable
    exact List.mem_map.mpr ⟨d, hd, dailyRowOf_missing rs d hpms⟩
  · intro row hrow hdate
    unfold statsTable at hrow
    rcases List.mem_append.mp hrow with h | h
    · unfold dailyTable at h
      rcases List.mem_map.mp h with ⟨d', _, rfl⟩
      rw [dailyRowOf_date] at hdate
      injection hdate with hd'd
      subst hd'd
      exact dailyRowOf_missing rs d' hpms
    · rw [List.mem_singleton] at h
      subst h
      simp [overallRow] at hdate
  · have hfe : rs.filter (fun r => r.recording_timestamp ≠ d) = rs := by
      apply List.filter_eq_self.mpr
      intro a ha
      simpa using hnone a ha
    rw [hfe]

/-- Witness for C5: window [0, 2] with one record on day 0 only; day 1
is a missing/missing row and the Overall row ignores it. -/
theorem c5_missing_day_witness :
    (⟨.day 1, .missing, .missing⟩ : StatsRow) ∈ statsTable [recOn 0] 0 2 ∧
    (∀ row ∈ statsTable [recOn 0] 0 2, row.date = .day 1 →
      row = ⟨.day 1, .missing, .missing⟩) ∧
    overallRow [recOn 0]
      = overallRow ([recOn 0].filter (fun r => r.recording_timestamp ≠ 1)) ∧
    (statsTable [recOn 0] 0 2).getLast? = some (overallRow [recOn 0]) :=
  c5_missing_day [recOn 0] 0 2 1 (by decide) (by decide)

/-- Claim C10: a record whose recording day lies outside [s, e]
produces no day row in the stats table (the reindex onto the window's
days discards its day bucket), yet the Overall row — the table's last
row — is computed over the entire in-area record set, whose pm2_5
value list still contains the record's value. -/
theorem c10_out_of_window (rs : List Record) (s e : ℕ) (r0 : Record)
    (hmem : r0 ∈ rs)
    (hout : r0.recording_timestamp < s ∨ e < r0.recording_timestamp) :
    (∀ row ∈ statsTable rs s e, row.date ≠ .day r0.recording_timestamp) ∧
    (statsTable rs s e).getLast? = some (overallRow rs) ∧
    overallRow rs
      = ⟨.overall, scaleCell (cellMean (rs.map (fun r => r.pm2_5))),
         scaleCell (cellMedian (rs.map (fun r => r.pm2_5)))⟩ ∧
    r0.pm2_5 ∈ rs.map (fun r => r.pm2_5) := by
  refine ⟨?_, statsTable_getLast rs s e, rfl, List.mem_map_of_mem _ hmem⟩
  intro row hrow hdate
  unfold statsTable at hrow
  rcases List.mem_append.mp hrow with h | h
  · unfold dailyTable at h
    rcases List.mem_map.mp h with ⟨d', hd', rfl⟩
    rw [dailyRowOf_date] at hdate
    injection hdate with hd'eq
    unfold windowDays at hd'
    rcases List.mem_map.mp hd' with ⟨i, hi, rfl⟩
    rw [List.mem_range] at hi
    omega
  · rw [List.mem_singleton] at h
    subst h
    simp [overallRow] at hdate

/-- Witness for C10: window [0, 2] with records on day 0 and on day 5;
no row is labelled day 5, yet the day-5 value 100 is in the list the
Overall row is computed from. -/
theorem c10_out_of_window_witness :
    (∀ row ∈ statsTable [recOn 0, recOn 5] 0 2,
      row.date ≠ .day (recOn 5).recording_timestamp) ∧
    (statsTable [recOn 0, recOn 5] 0 2).getLast?
      = some (overallRow [recOn 0, recOn 5]) ∧
    overallRow [recOn 0, recOn 5]
      = ⟨.overall,
         scaleCell (cellMean ([recOn 0, recOn 5].map (fun r => r.pm2_5))),
         scaleCell (cellMedian ([recOn 0, recOn 5].map (fun r => r.pm2_5)))⟩ ∧
    (recOn 5).pm2_5 ∈ [recOn 0, recOn 5].map (fun r => r.pm2_5) :=
  c10_out_of_window [recOn 0, recOn 5] 0 2 (recOn 5) (by decide)
    (Or.inr (by decide))

/-- Claim C8 counterexample.  Part 1 (scenario `sc8a`, windows (0,0)
and (1,1), one area "A", daily-stats failing only for window (1,1)):
the erroring unit is NOT absent from the summary — both units appear —
and its table starts with the day-0 row left over from window (0,0)
(the stale `daily_stats` binding), where a correct table for window
(1,1) would start with a day-1 row.  Part 2 (scenario `sc8b`, window
(0,0), areas "A" then "B", daily-stats failing for "A" with no prior
binding): the NameError at `pd.concat` aborts the window's area loop,
so the healthy sibling area "B" is also missing from the summary. -/
theorem c8_counterexample :
    (runPipeline sc8a ["A"] initState [(0, 0), (1, 1)]).summary.map Prod.fst
      = [("A", (0, 0)), ("A", (1, 1))] ∧
    ((runPipeline sc8a ["A"] initState [(0, 0), (1, 1)]).summary.getD 1
        (("", (0, 0)), [])).2.head?.map StatsRow.date
      = some (.day 0) ∧
    (runPipeline sc8b ["A", "B"] initState [(0, 0)]).summary = [] :=
  ⟨rfl, rfl, rfl⟩

/-- Claim C8 (amended): an exception in the window body is caught at
the window boundary and skips exactly that window, and every window is
attempted regardless of failures in the others; an unreadable area
geometry skips exactly that area; but an error during
daily-statistics computation does not skip the unit: when a daily
table from an earlier unit is still bound, the unit is appended to the
summary with that stale daily table and its own overall row, and when
no daily table was ever bound, the resulting NameError aborts the
remaining areas of the current window (leaving the summary unchanged),
while later windows still proceed. -/
theorem c8_amended (sc : Scenario) (areas : List String) (st : OrchState)
    (w : ℕ × ℕ) (gdf : List Record) (a : String) (rest : List String)
    (ws1 ws2 : List (ℕ × ℕ)) (dt : List StatsRow) :
    (sc.windowFail w = true → processWindow sc areas st w = st) ∧
    runPipeline sc areas st (ws1 ++ ws2)
      = runPipeline sc areas (runPipeline sc areas st ws1) ws2 ∧
    (sc.geoFail w a = true → processArea sc w gdf st a = .ok st) ∧
    (sc.dailyFail w a = true → sc.geoFail w a = false →
      sc.overallFail w a = false → st.daily_stats = some dt →
      (withinArea (sc.inside a) gdf).isEmpty = false →
      processArea sc w gdf st a =
        .ok ⟨some dt, some (overallRow (withinArea (sc.inside a) gdf)),
          st.summary ++
            [((a, w), dt ++ [overallRow (withinArea (sc.inside a) gdf)])]⟩) ∧
    (sc.dailyFail w a = true → sc.geoFail w a = false →
      sc.overallFail w a = false → st.daily_stats = none →
      (withinArea (sc.inside a) gdf).isEmpty = false →
      processAreas sc w gdf st (a :: rest) =
        ⟨none, some (overallRow (withinArea (sc.inside a) gdf)),
         st.summary⟩) := by
  refine ⟨?_, ?_, ?_, ?_, ?_⟩
  · intro h
    simp [processWindow, h]
  · unfold runPipeline
    exact List.foldl_append _ _ _ _
  · intro h
    simp [processArea, h]
  · intro h1 h2 h3 h4 h5
    simp [processArea, h1, h2, h3, h4, h5]
  · intro h1 h2 h3 h4 h5
    simp [processAreas, processArea, h1, h2, h3, h4, h5]

/-- Witness for C8 (amended) at concrete inputs: in scenario `sc8a`
the daily-failing unit of window (1,1) is still appended with the
stale table `dtW`; in scenario `sc8b` the first-unit daily failure
raises, aborting the area loop before area "B". -/
theorem c8_amended_witness :
    processArea sc8a (1, 1) [recOn 1] stW "A" =
      .ok ⟨some dtW,
        some (overallRow (withinArea (sc8a.inside "A") [recOn 1])),
        stW.summary ++
          [(("A", (1, 1)),
            dtW ++ [overallRow (withinArea (sc8a.inside "A") [recOn 1])])]⟩ ∧
    processAreas sc8b (0, 0) [recOn 0] initState ["A", "B"] =
      ⟨none, some (overallRow (withinArea (sc8b.inside "A") [recOn 0])),
       initState.summary⟩ :=
  ⟨(c8_amended sc8a ["A"] stW (1, 1) [recOn 1] "A" [] [] [] dtW).2.2.2.1
      rfl rfl rfl rfl rfl,
   (c8_amended sc8b ["A", "B"] initState (0, 0) [recOn 0] "A" ["B"] [] []
      []).2.2.2.2 rfl rfl rfl rfl rfl⟩
